import Mathlib

/-!
# BeGo: token lifecycle and session management

A shallow embedding of `internal/utils/utils.go`, `internal/middleware/jwt.go`
and `internal/handlers/auth.go`.

Conventions of the embedding

* Go strings are `List Char` (valid UTF-8 text); `len(s)` is the UTF-8 byte
  count `goLen s`.
* `int`, `int64` and `time.Duration` are `Int`; where Go arithmetic can wrap,
  the wrap is explicit (`wrapInt64`).  `int` is 64 bits wide.
* `time.Time` is an `Int` count of nanoseconds since the Unix epoch, and every
  call of `time.Now()` is an explicit argument.
* Code outside the repository (`strconv`, `time.ParseDuration`, `golang-jwt`,
  `bcrypt`, PostgreSQL) is either modelled after its documented behaviour or
  taken as a parameter; each place says which.
-/

namespace BeGo

deriving instance DecidableEq for Except

/-! ## strconv -/

/-- The two error kinds of `strconv.NumError`. -/
inductive NumError where
  | ErrSyn
  | ErrRange
  deriving DecidableEq, Repr

/-- Two's complement wrap of an integer into `int64`. -/
def wrapInt64 (x : Int) : Int := (x + 2 ^ 63) % 2 ^ 64 - 2 ^ 63

/-- The decimal digit character of `d < 10`. -/
def digitChar (d : Nat) : Char := Char.ofNat (48 + d)

/-- Digit loop of `strconv.FormatUint` in base 10, most significant digit first,
prepending to `acc`; `fuel` bounds the number of digits. -/
def formatBits : Nat → Nat → List Char → List Char
  | 0, _, acc => acc
  | fuel + 1, n, acc =>
    if n < 10 then digitChar n :: acc
    else formatBits fuel (n / 10) (digitChar (n % 10) :: acc)

/-- `strconv.FormatUint(n, 10)`. -/
def FormatUint (n : Nat) : List Char := formatBits (n + 1) n []

/-- `strconv.FormatInt(i, 10)`. -/
def FormatInt (i : Int) : List Char :=
  if i < 0 then '-' :: FormatUint (-i).toNat else FormatUint i.toNat

/-- Largest `uint64`. -/
def maxUint64 : Nat := 2 ^ 64 - 1

/-- One iteration of the digit loop of `strconv.ParseUint(s, 10, 64)`: reject a
byte that is not a decimal digit, reject overflow of `n*10` and of `n*10 + d`. -/
def parseUintStep (n : Nat) (c : Char) : Except NumError Nat :=
  if c.toNat < 48 ∨ 57 < c.toNat then .error .ErrSyn
  else if maxUint64 / 10 + 1 ≤ n then .error .ErrRange
  else if maxUint64 < n * 10 + (c.toNat - 48) then .error .ErrRange
  else .ok (n * 10 + (c.toNat - 48))

/-- The digit loop of `strconv.ParseUint`, started from the value `n`. -/
def parseUintLoop : List Char → Nat → Except NumError Nat
  | [], n => .ok n
  | c :: cs, n =>
    match parseUintStep n c with
    | .error e => .error e
    | .ok n1 => parseUintLoop cs n1

/-- `strconv.ParseUint(s, 10, 64)`. -/
def ParseUint (s : List Char) : Except NumError Nat :=
  if s = [] then .error .ErrSyn else parseUintLoop s 0

/-- `strconv.ParseInt(s, 10, 64)`: optional sign, then `ParseUint`, then the
range check against `1 << 63`. -/
def ParseInt (s : List Char) : Except NumError Int :=
  match s with
  | [] => .error .ErrSyn
  | c :: cs =>
    let neg := c = '-'
    let body := if c = '+' ∨ c = '-' then cs else c :: cs
    match ParseUint body with
    | .error e => .error e
    | .ok un =>
      if ¬ neg ∧ 2 ^ 63 ≤ un then .error .ErrRange
      else if neg ∧ 2 ^ 63 < un then .error .ErrRange
      else .ok (if neg then -(un : Int) else (un : Int))

/-- `strconv.Atoi(s)` on a 64-bit platform; its fast path for short strings
computes the same result as `ParseInt(s, 10, 0)`. -/
def Atoi (s : List Char) : Except NumError Int := ParseInt s

/-! ## internal/utils/utils.go -/

/-- Errors returned by `parseTTL`, `GenerateToken` and `VerifyToken`. -/
inductive JwtError where
  | malformed
  | unverifiable
  | signatureInvalid
  | expired
  | notValidYet
  | expiredAndNotValidYet
  deriving DecidableEq, Repr

/-- Errors of the utils package. -/
inductive UtilError where
  | secretNotConfigured
  | invalidDuration
  | num (e : NumError)
  | jwt (e : JwtError)
  | tokenExpired
  deriving DecidableEq, Repr

/-- `time.Minute` in nanoseconds. -/
def minute : Int := 60000000000

/-- `time.Second` in nanoseconds. -/
def second : Int := 1000000000

/-- `strings.HasSuffix`. -/
def HasSuffix (s suffix : List Char) : Bool := suffix.isSuffixOf s

/-- `parseTTL` of `utils.go`.  `parseDuration` is `time.ParseDuration` of the Go
standard library (`none` is its error result). -/
def parseTTL (parseDuration : List Char → Option Int) (ttlStr : List Char) :
    Except UtilError Int :=
  if ttlStr = [] then .ok (15 * minute)
  else if HasSuffix ttlStr ['m'] ∨ HasSuffix ttlStr ['h'] ∨ HasSuffix ttlStr ['s'] then
    match parseDuration ttlStr with
    | some d => .ok d
    | none => .error .invalidDuration
  else
    match Atoi ttlStr with
    | .error e => .error (.num e)
    | .ok min => .ok (wrapInt64 (wrapInt64 min * minute))

/-- A decimal digit character, as `'0' <= c && c <= '9'`. -/
def isDigit (c : Char) : Bool := decide (48 ≤ c.toNat ∧ c.toNat ≤ 57)

/-- The number a string of decimal digits denotes. -/
def decimalValue (s : List Char) : Nat :=
  s.foldl (fun n c => n * 10 + (c.toNat - 48)) 0

/-- An optionally signed, non-empty string of decimal digits. -/
def isSignedDecimal (s : List Char) : Bool :=
  match s with
  | [] => false
  | c :: cs =>
    if c = '+' ∨ c = '-' then decide (cs ≠ []) && cs.all isDigit
    else (c :: cs).all isDigit

/-- `CustomClaims` of `utils.go`: the e-mail and the registered claims the code and the
token validator read.  A `NumericDate` is a time in nanoseconds. -/
structure CustomClaims where
  Email : List Char
  Subject : List Char
  ExpiresAt : Option Int
  NotBefore : Option Int
  IssuedAt : Option Int
  deriving DecidableEq, Repr

/-- `CustomClaims.SubjectInt`: the subject parsed as a base-10 `int64`, 0 when it does not
parse. -/
def SubjectInt (c : CustomClaims) : Int :=
  match ParseInt c.Subject with
  | .error _ => 0
  | .ok v => v

/-- The part of `golang-jwt/jwt/v5` that depends on the wire encoding and on HMAC-SHA256,
taken as a parameter.  `SignedString c key` is
`jwt.NewWithClaims(jwt.SigningMethodHS256, c).SignedString(key)`; `parseSigned tok key` is
what `Parser.ParseWithClaims` does before it validates the claims: split and decode the
token, require the `HS256` method, check the signature against `key`. -/
structure JwtLib where
  SignedString : CustomClaims → List Char → List Char
  parseSigned : List Char → List Char → Except JwtError CustomClaims

/-- `jwt.NewNumericDate(t)`: `t` truncated to the second. -/
def NewNumericDate (t : Int) : Int := t / second * second

/-- `Time.Unix()`: whole seconds since the epoch. -/
def Unix (t : Int) : Int := t / second

/-- The `exp` check of the validator of jwt/v5: with an `exp` claim, the token is
expired unless `now` is before it. -/
def expiredAt (c : CustomClaims) (now : Int) : Bool :=
  match c.ExpiresAt with
  | some e => decide (¬ now < e)
  | none => false

/-- The `nbf` check of the validator of jwt/v5: with an `nbf` claim, the token is not yet
valid while `now` is before it. -/
def notValidYetAt (c : CustomClaims) (now : Int) : Bool :=
  match c.NotBefore with
  | some n => decide (now < n)
  | none => false

/-- `Validator.Validate` of jwt/v5 with its default options (`exp` and `nbf` checked when
present, `iat` not checked); the failed checks are reported together. -/
def Validate (c : CustomClaims) (now : Int) : Option JwtError :=
  match expiredAt c now, notValidYetAt c now with
  | true, true => some .expiredAndNotValidYet
  | true, false => some .expired
  | false, true => some .notValidYet
  | false, false => none

/-- `Parser.ParseWithClaims` with `WithValidMethods([HS256])` and a key function that
returns `key`; `now` is the validator's reading of the clock. -/
def ParseWithClaims (J : JwtLib) (tokenStr key : List Char) (now : Int) :
    Except JwtError CustomClaims :=
  match J.parseSigned tokenStr key with
  | .error e => .error e
  | .ok c =>
    match Validate c now with
    | some e => .error e
    | none => .ok c

/-- The claims `GenerateToken` builds for a token issued at `now` with lifetime `dur`. -/
def issuedClaims (userID : Int) (email : List Char) (now dur : Int) : CustomClaims :=
  { Email := email
    Subject := FormatInt userID
    ExpiresAt := some (NewNumericDate (now + dur))
    NotBefore := none
    IssuedAt := some (NewNumericDate now) }

/-- `GenerateToken` of `utils.go`; `now` is its `time.Now()`.  Signing with HS256 and a
byte-slice key has no error result, so `SignedString` is total here. -/
def GenerateToken (J : JwtLib) (parseDuration : List Char → Option Int) (now : Int)
    (userID : Int) (email secret ttlStr : List Char) : Except UtilError (List Char × Int) :=
  if secret = [] then .error .secretNotConfigured
  else
    match parseTTL parseDuration ttlStr with
    | .error e => .error e
    | .ok dur =>
      let expTime := now + dur
      let claims := issuedClaims userID email now dur
      let signed := J.SignedString claims secret
      .ok (signed, Unix expTime)

/-- `VerifyToken` of `utils.go`.  `now1` is the clock as the parser's validator reads it,
`now2` the clock as the explicit `time.Until` check reads it afterwards. -/
def VerifyToken (J : JwtLib) (now1 now2 : Int) (tokenStr secret : List Char) :
    Except UtilError CustomClaims :=
  if secret = [] then .error .secretNotConfigured
  else
    match ParseWithClaims J tokenStr secret now1 with
    | .error e => .error (.jwt e)
    | .ok claims =>
      match claims.ExpiresAt with
      | none => .error .tokenExpired
      | some e => if e - now2 ≤ 0 then .error .tokenExpired else .ok claims

/-- An expiry error of `VerifyToken`: the validator's `ErrTokenExpired` or the
function's own `token expired`. -/
def isExpiryError (e : UtilError) : Bool :=
  match e with
  | .tokenExpired => true
  | .jwt .expired => true
  | .jwt .expiredAndNotValidYet => true
  | _ => false

/-- A signature error of `VerifyToken`: `ErrTokenSignatureInvalid`. -/
def isSignatureError (e : UtilError) : Bool :=
  match e with
  | .jwt .signatureInvalid => true
  | _ => false

/-- A token library for examples: a token spells out the key and the claims, and a token
is recognised when it is the signed form, under the given key, of one of `known`. -/
def demoJwt (known : List CustomClaims) : JwtLib :=
  let sign : CustomClaims → List Char → List Char := fun c key =>
    let date : Option Int → List Char := fun d =>
      match d with
      | none => ['-']
      | some t => FormatInt t
    key ++ '.' :: c.Subject ++ '.' :: c.Email ++ '.' :: date c.ExpiresAt
      ++ '.' :: date c.NotBefore ++ '.' :: date c.IssuedAt
  { SignedString := sign
    parseSigned := fun tok key =>
      match known.find? (fun c => decide (sign c key = tok)) with
      | some c => .ok c
      | none => .error .signatureInvalid }

/-! ## internal/middleware/jwt.go -/

/-- `models.User`; `Role` is a string and `CreatedAt` a time. -/
structure User where
  ID : Int
  Email : List Char
  Password : List Char
  Role : List Char
  CreatedAt : Int
  deriving DecidableEq, Repr

/-- `tokenResp` of `auth.go`. -/
structure tokenResp where
  AccessToken : List Char
  RefreshToken : List Char
  ExpiresIn : Int
  deriving DecidableEq, Repr

/-- The body a handler or middleware wrote: nothing, `{"error": msg}`,
`{"message": msg}`, a `tokenResp` or a user. -/
inductive Body where
  | empty
  | error (msg : String)
  | message (msg : String)
  | tokens (t : tokenResp)
  | user (u : User)
  deriving DecidableEq, Repr

/-- `unicode.IsSpace`, as `strings.TrimSpace` uses it. -/
def isSpace (c : Char) : Bool :=
  let n := c.toNat
  decide (n = 9 ∨ n = 10 ∨ n = 11 ∨ n = 12 ∨ n = 13 ∨ n = 32 ∨ n = 0x85 ∨ n = 0xA0 ∨
    n = 0x1680 ∨ (0x2000 ≤ n ∧ n ≤ 0x200A) ∨ n = 0x2028 ∨ n = 0x2029 ∨ n = 0x202F ∨
    n = 0x205F ∨ n = 0x3000)

/-- `strings.TrimSpace`. -/
def TrimSpace (s : List Char) : List Char :=
  ((s.dropWhile isSpace).reverse.dropWhile isSpace).reverse

/-- `strings.ToLower` on the letters `A`–`Z`; no other character maps to a letter of
`bearer`, the only string the result is compared with. -/
def ToLower (s : List Char) : List Char := s.map Char.toLower

/-- The text before the first space of `s` and the text after it, when `s` has a space
(`strings.Index` and the two slices `SplitN` takes). -/
def cutAtSpace : List Char → Option (List Char × List Char)
  | [] => none
  | c :: cs =>
    if c = ' ' then some ([], cs)
    else
      match cutAtSpace cs with
      | none => none
      | some (before, after) => some (c :: before, after)

/-- `strings.SplitN(s, " ", 2)`: the text before the first space and the text after it,
or `s` alone when it has no space. -/
def SplitN2 (s : List Char) : List (List Char) :=
  match cutAtSpace s with
  | none => [s]
  | some (before, after) => [before, after]

/-- The end of a run of `AuthMiddleware`: it answered itself, or it called the wrapped
handler with `ctxUserID` stored under `CtxUserIDKey`. -/
inductive GateOutcome where
  | responded (status : Nat) (body : Body)
  | next (ctxUserID : Int)
  deriving DecidableEq, Repr

/-- `AuthMiddleware` of `jwt.go`; `auth` is the `Authorization` header (empty when the
header is missing) and `accessSecret` the value of `ACCESS_SECRET`. -/
def AuthMiddleware (J : JwtLib) (now1 now2 : Int) (accessSecret auth : List Char) :
    GateOutcome :=
  if auth = [] then .responded 401 .empty
  else
    match SplitN2 auth with
    | [scheme, rest] =>
      if ToLower scheme ≠ "bearer".toList then .responded 401 .empty
      else
        let token := TrimSpace rest
        if token = [] then .responded 401 .empty
        else
          match VerifyToken J now1 now2 token accessSecret with
          | .error _ => .responded 401 .empty
          | .ok claims => .next (SubjectInt claims)
    | _ => .responded 401 .empty

/-! ## internal/handlers/auth.go -/

/-- A response: status code and body. -/
structure Response where
  status : Nat
  body : Body
  deriving DecidableEq, Repr

/-- A row of the `refresh_tokens` table; `expires_at` is in whole seconds, as
`time.Unix(exp, 0)` stores it. -/
structure RefreshTokenRow where
  user_id : Int
  token : List Char
  expires_at : Int
  deriving DecidableEq, Repr

/-- The two tables the handlers use. -/
structure DB where
  users : List User
  refresh_tokens : List RefreshTokenRow
  deriving DecidableEq, Repr

/-- The errors of a store statement: no row for `Get`, a uniqueness violation, anything
else (connection lost, timeout, aborted transaction). -/
inductive DbError where
  | noRows
  | uniqueViolation
  | other
  deriving DecidableEq, Repr

/-- The environment variables the handlers read. -/
structure Env where
  ACCESS_SECRET : List Char
  ACCESS_TTL : List Char
  REFRESH_SECRET : List Char
  REFRESH_TTL : List Char
  deriving DecidableEq, Repr

/-- The two functions of `golang.org/x/crypto/bcrypt` the handlers call, taken as
parameters; `GenerateFromPassword` returns `none` for its error result. -/
structure Bcrypt where
  GenerateFromPassword : List Char → Option (List Char)
  CompareHashAndPassword : List Char → List Char → Bool

/-- `signUpReq` and `loginReq` of `auth.go`. -/
structure credReq where
  Email : List Char
  Password : List Char
  deriving DecidableEq, Repr

/-- `refreshReq` of `auth.go`. -/
structure refreshReq where
  RefreshToken : List Char
  deriving DecidableEq, Repr

/-- Go's `len(s)`: the number of bytes of the UTF-8 encoding of `s`. -/
def goLen (s : List Char) : Nat := (s.map Char.utf8Size).sum

/-- Modelled from the spec: the schema of the `users` table is not in the repository; the
spec gives it a unique numeric id, a unique e-mail and a role that is at least `user`.
`INSERT INTO users (email, password_hash)` with the other columns defaulted; `fault`
makes the statement fail for a reason outside the data. -/
def execInsertUser (fault : Bool) (createdAt : Int) (db : DB) (email hash : List Char) :
    Except DbError DB :=
  if fault then .error .other
  else if db.users.any (fun u => decide (u.Email = email)) then .error .uniqueViolation
  else
    .ok { db with
      users := db.users ++
        [{ ID := (db.users.map (fun u => u.ID)).foldl max 0 + 1
           Email := email
           Password := hash
           Role := "user".toList
           CreatedAt := createdAt }] }

/-- `DB.Get(&u, SELECT ... FROM users WHERE email=$1)`. -/
def getUserByEmail (fault : Bool) (db : DB) (email : List Char) : Except DbError User :=
  if fault then .error .other
  else
    match db.users.find? (fun u => decide (u.Email = email)) with
    | none => .error .noRows
    | some u => .ok u

/-- `DB.Get(&user, SELECT id, email, role, created_at FROM users WHERE id=$1)`; the
password hash is not selected. -/
def getUserByID (fault : Bool) (db : DB) (uid : Int) : Except DbError User :=
  if fault then .error .other
  else
    match db.users.find? (fun u => decide (u.ID = uid)) with
    | none => .error .noRows
    | some u => .ok { u with Password := [] }

/-- `SELECT EXISTS (SELECT 1 FROM refresh_tokens WHERE token=$1 AND user_id=$2 AND
expires_at > NOW())`; `dbNow` is the store's clock in nanoseconds. -/
def refreshTokenExists (rows : List RefreshTokenRow) (token : List Char) (uid dbNow : Int) :
    Bool :=
  rows.any (fun r => decide (r.token = token) && decide (r.user_id = uid) &&
    decide (dbNow < r.expires_at * second))

/-- `DELETE FROM refresh_tokens WHERE token=$1` on a list of rows. -/
def deleteToken (rows : List RefreshTokenRow) (token : List Char) : List RefreshTokenRow :=
  rows.filter (fun r => decide (r.token ≠ token))

/-- Modelled from the spec: the schema of `refresh_tokens` is not in the repository; the
spec makes the token string unique.  `INSERT INTO refresh_tokens (user_id, token,
expires_at)` on a list of rows. -/
def insertToken (rows : List RefreshTokenRow) (row : RefreshTokenRow) :
    Except DbError (List RefreshTokenRow) :=
  if rows.any (fun r => decide (r.token = row.token)) then .error .uniqueViolation
  else .ok (rows ++ [row])

/-- The result of `SignUp`, with a record of whether bcrypt was called and whether the
`INSERT` was sent. -/
structure SignUpResult where
  resp : Response
  db : DB
  hashed : Bool
  insertAttempted : Bool
  deriving DecidableEq, Repr

/-- `AuthHandler.SignUp`; `body` is the decoded request (`none` when decoding fails),
`insertFault` makes the `INSERT` fail for a reason outside the data, `createdAt` is the
store's clock. -/
def SignUp (B : Bcrypt) (insertFault : Bool) (createdAt : Int) (db : DB)
    (body : Option credReq) : SignUpResult :=
  match body with
  | none => ⟨⟨400, .error "invalid json"⟩, db, false, false⟩
  | some req =>
    if req.Email = [] ∨ req.Password = [] then
      ⟨⟨400, .error "email and password required"⟩, db, false, false⟩
    else if goLen req.Password < 6 then
      ⟨⟨400, .error "password must be at least 6 characters"⟩, db, false, false⟩
    else
      match B.GenerateFromPassword req.Password with
      | none => ⟨⟨500, .error "internal error"⟩, db, true, false⟩
      | some hash =>
        match execInsertUser insertFault createdAt db req.Email hash with
        | .error _ => ⟨⟨400, .error "email already exists"⟩, db, true, true⟩
        | .ok db1 => ⟨⟨201, .message "user created"⟩, db1, true, true⟩

/-- The store statements of `Login` that fail for a reason outside the data. -/
structure LoginFaults where
  getUser : Bool
  insertToken : Bool
  deriving DecidableEq, Repr

/-- The readings of `time.Now()` in `Login`: one in each `GenerateToken`. -/
structure LoginClock where
  access : Int
  refresh : Int
  deriving DecidableEq, Repr

/-- `AuthHandler.Login`. -/
def Login (J : JwtLib) (B : Bcrypt) (parseDuration : List Char → Option Int) (env : Env)
    (clk : LoginClock) (faults : LoginFaults) (db : DB) (body : Option credReq) :
    Response × DB :=
  match body with
  | none => (⟨400, .error "invalid json"⟩, db)
  | some req =>
    match getUserByEmail faults.getUser db req.Email with
    | .error .noRows => (⟨401, .error "invalid credentials"⟩, db)
    | .error _ => (⟨500, .error "db error"⟩, db)
    | .ok u =>
      if ¬ B.CompareHashAndPassword u.Password req.Password then
        (⟨401, .error "invalid credentials"⟩, db)
      else
        match GenerateToken J parseDuration clk.access u.ID u.Email env.ACCESS_SECRET
            env.ACCESS_TTL with
        | .error _ => (⟨500, .error "token error"⟩, db)
        | .ok (access, expAccess) =>
          match GenerateToken J parseDuration clk.refresh u.ID u.Email env.REFRESH_SECRET
              env.REFRESH_TTL with
          | .error _ => (⟨500, .error "token error"⟩, db)
          | .ok (refresh, expRefresh) =>
            if faults.insertToken then (⟨500, .error "db error"⟩, db)
            else
              match insertToken db.refresh_tokens ⟨u.ID, refresh, expRefresh⟩ with
              | .error _ => (⟨500, .error "db error"⟩, db)
              | .ok rows =>
                (⟨200, .tokens ⟨access, refresh, expAccess⟩⟩,
                  { db with refresh_tokens := rows })

/-- A PostgreSQL transaction on `refresh_tokens`: the rows as the transaction sees them,
and whether a statement has failed in it.  After a failed statement PostgreSQL rejects
every further statement of the transaction and turns its `COMMIT` into a rollback. -/
structure Tx where
  rows : List RefreshTokenRow
  aborted : Bool
  deriving DecidableEq, Repr

/-- `tx.Exec(DELETE FROM refresh_tokens WHERE token=$1)`: the transaction afterwards and
whether the statement returned an error. -/
def txDelete (fault : Bool) (tx : Tx) (token : List Char) : Tx × Bool :=
  if tx.aborted ∨ fault then ({ tx with aborted := true }, true)
  else ({ tx with rows := deleteToken tx.rows token }, false)

/-- `tx.Exec(INSERT INTO refresh_tokens ...)`: the transaction afterwards and whether the
statement returned an error. -/
def txInsert (fault : Bool) (tx : Tx) (row : RefreshTokenRow) : Tx × Bool :=
  if tx.aborted ∨ fault then ({ tx with aborted := true }, true)
  else
    match insertToken tx.rows row with
    | .error _ => ({ tx with aborted := true }, true)
    | .ok rows => ({ tx with rows := rows }, false)

/-- `tx.Commit()`: the table afterwards and whether the commit returned an error. -/
def txCommit (fault : Bool) (db : DB) (tx : Tx) : DB × Bool :=
  if tx.aborted ∨ fault then (db, true)
  else ({ db with refresh_tokens := tx.rows }, false)

/-- The store statements of `Refresh` that fail for a reason outside the data. -/
structure RefreshFaults where
  existsQuery : Bool
  begin : Bool
  delete : Bool
  insert : Bool
  commit : Bool
  deriving DecidableEq, Repr

/-- The clock readings of `Refresh`: the two of `VerifyToken`, the store's `NOW()`, and
`time.Now()` in each `GenerateToken`. -/
structure RefreshClock where
  verify1 : Int
  verify2 : Int
  dbNow : Int
  access : Int
  refresh : Int
  deriving DecidableEq, Repr

/-- The first part of `AuthHandler.Refresh`, up to and including the existence query: the
verified claims, or the response that ends the call. -/
def RefreshCheck (J : JwtLib) (env : Env) (clk : RefreshClock) (faults : RefreshFaults)
    (db : DB) (req : refreshReq) : Except Response CustomClaims :=
  match VerifyToken J clk.verify1 clk.verify2 req.RefreshToken env.REFRESH_SECRET with
  | .error _ => .error ⟨401, .error "invalid token"⟩
  | .ok claims =>
    let err := faults.existsQuery
    let found := !faults.existsQuery &&
      refreshTokenExists db.refresh_tokens req.RefreshToken (SubjectInt claims) clk.dbNow
    if err ∨ ¬ found then .error ⟨401, .error "refresh token expired or invalid"⟩
    else .ok claims

/-- The second part of `AuthHandler.Refresh`: the transaction, from `Beginx` to the
response.  A return before `Commit` runs the deferred `Rollback`, which leaves the table
as it was. -/
def RefreshRotate (J : JwtLib) (parseDuration : List Char → Option Int) (env : Env)
    (clk : RefreshClock) (faults : RefreshFaults) (db : DB) (req : refreshReq)
    (claims : CustomClaims) : Response × DB :=
  if faults.begin then (⟨500, .error "db error"⟩, db)
  else
    let tx0 : Tx := ⟨db.refresh_tokens, false⟩
    let tx1 := (txDelete faults.delete tx0 req.RefreshToken).1
    match GenerateToken J parseDuration clk.access (SubjectInt claims) claims.Email
        env.ACCESS_SECRET env.ACCESS_TTL with
    | .error _ => (⟨500, .error "token error"⟩, db)
    | .ok (access, expAccess) =>
      match GenerateToken J parseDuration clk.refresh (SubjectInt claims) claims.Email
          env.REFRESH_SECRET env.REFRESH_TTL with
      | .error _ => (⟨500, .error "token error"⟩, db)
      | .ok (refresh, expRefresh) =>
        match txInsert faults.insert tx1 ⟨SubjectInt claims, refresh, expRefresh⟩ with
        | (_, true) => (⟨500, .error "db error"⟩, db)
        | (tx2, false) =>
          match txCommit faults.commit db tx2 with
          | (_, true) => (⟨500, .error "db error"⟩, db)
          | (db1, false) => (⟨200, .tokens ⟨access, refresh, expAccess⟩⟩, db1)

/-- `AuthHandler.Refresh`. -/
def Refresh (J : JwtLib) (parseDuration : List Char → Option Int) (env : Env)
    (clk : RefreshClock) (faults : RefreshFaults) (db : DB) (body : Option refreshReq) :
    Response × DB :=
  match body with
  | none => (⟨400, .error "invalid json"⟩, db)
  | some req =>
    match RefreshCheck J env clk faults db req with
    | .error r => (r, db)
    | .ok claims => RefreshRotate J parseDuration env clk faults db req claims

/-- `AuthHandler.Logout`. -/
def Logout (fault : Bool) (db : DB) (body : Option refreshReq) : Response × DB :=
  match body with
  | none => (⟨400, .error "invalid json"⟩, db)
  | some req =>
    if fault then (⟨500, .error "db error"⟩, db)
    else (⟨204, .empty⟩, { db with refresh_tokens := deleteToken db.refresh_tokens req.RefreshToken })

/-- `AuthHandler.Me`; `ctxUserID` is the `int64` stored under `CtxUserIDKey`, if any. -/
def Me (fault : Bool) (db : DB) (ctxUserID : Option Int) : Response :=
  match ctxUserID with
  | none => ⟨401, .error "not authorized"⟩
  | some uid =>
    match getUserByID fault db uid with
    | .error _ => ⟨500, .error "db error"⟩
    | .ok user => ⟨200, .user user⟩

/-! ### Concurrent calls of Refresh -/

/-- One call of `Refresh` in flight: its request, its clock readings and its faults. -/
structure RefreshCall where
  req : refreshReq
  clk : RefreshClock
  faults : RefreshFaults
  deriving DecidableEq, Repr

/-- How far a call of `Refresh` has run: not started, past the existence query with the
verified claims in hand, or finished with a response. -/
inductive CallState where
  | start
  | checked (claims : CustomClaims)
  | done (resp : Response)
  deriving DecidableEq, Repr

/-- One step of one call against the shared store: the existence query, then the
transaction.  Each is one atomic action on the store; under PostgreSQL's default
isolation the statements of a transaction that meets another one on the same row wait
for it to commit and then see its effect, as if the transactions ran one after the
other. -/
def stepCall (J : JwtLib) (parseDuration : List Char → Option Int) (env : Env)
    (call : RefreshCall) (st : CallState) (db : DB) : CallState × DB :=
  match st with
  | .start =>
    match RefreshCheck J env call.clk call.faults db call.req with
    | .error r => (.done r, db)
    | .ok claims => (.checked claims, db)
  | .checked claims =>
    let out := RefreshRotate J parseDuration env call.clk call.faults db call.req claims
    (.done out.1, out.2)
  | .done r => (.done r, db)

/-- Runs a schedule: each entry names the call that takes its next step. -/
def runSchedule (J : JwtLib) (parseDuration : List Char → Option Int) (env : Env)
    (calls : List RefreshCall) :
    List Nat → List CallState → DB → List CallState × DB
  | [], sts, db => (sts, db)
  | i :: rest, sts, db =>
    match calls.get? i, sts.get? i with
    | some call, some st =>
      let out := stepCall J parseDuration env call st db
      runSchedule J parseDuration env calls rest (sts.set i out.1) out.2
    | _, _ => runSchedule J parseDuration env calls rest sts db

/-! ## Concrete data for the examples -/

/-- The claims of the token used in the examples: user 7, issued at second 5 with a
lifetime of `dur` nanoseconds. -/
def demoClaims (dur : Int) : CustomClaims := issuedClaims 7 "a@b.c".toList 5000000000 dur

/-- The claims of a token without expiry that becomes valid at second 9. -/
def demoNotBeforeClaims : CustomClaims :=
  { Email := "a@b.c".toList
    Subject := "7".toList
    ExpiresAt := none
    NotBefore := some 9000000000
    IssuedAt := none }

/-- A bcrypt for examples: it refuses passwords of more than 72 bytes, as
`GenerateFromPassword` does, and a hash spells out its password. -/
def demoBcrypt : Bcrypt :=
  { GenerateFromPassword := fun p => if 72 < goLen p then none else some ('#' :: p)
    CompareHashAndPassword := fun hash p => decide (hash = '#' :: p) }

/-- An environment for examples: lifetimes of 15 and 60 minutes. -/
def demoEnv : Env :=
  { ACCESS_SECRET := "a".toList
    ACCESS_TTL := "15".toList
    REFRESH_SECRET := "r".toList
    REFRESH_TTL := "60".toList }

/-- A store with the single user 7 and no refresh token. -/
def demoDB : DB :=
  { users := [⟨7, "a@b.c".toList, "#secret1".toList, "user".toList, 0⟩]
    refresh_tokens := [] }

/-- The claims of the refresh token user 7 obtains by logging in at 5.2 s. -/
def demoRefreshClaims : CustomClaims :=
  issuedClaims 7 "a@b.c".toList 5200000000 (60 * minute)

/-- The token library of the examples about `Refresh`: it recognises the refresh token
issued at second 5. -/
def demoRefreshJwt : JwtLib := demoJwt [demoRefreshClaims]

/-- The refresh token user 7 obtains by logging in at 5.2 s. -/
def demoRefreshToken : List Char :=
  demoRefreshJwt.SignedString demoRefreshClaims "r".toList

/-- The store after that login: the row of `demoRefreshToken`, expiring at second 3605. -/
def demoDBLoggedIn : DB :=
  { demoDB with refresh_tokens := [⟨7, demoRefreshToken, 3605⟩] }

/-- No statement of `Refresh` fails. -/
def noRefreshFaults : RefreshFaults := ⟨false, false, false, false, false⟩

/-- A clock for a call of `Refresh` that starts at `t` and reads the clock every 0.1 s. -/
def clockFrom (t : Int) : RefreshClock :=
  ⟨t, t + 100000000, t + 200000000, t + 300000000, t + 400000000⟩

/-! ## Theorems -/

set_option maxRecDepth 100000

/-! ### strconv -/

theorem foldl_digits_le (cs : List Char) (n : Nat) :
    n ≤ cs.foldl (fun n c => n * 10 + (c.toNat - 48)) n := by
  induction cs generalizing n with
  | nil => simp
  | cons c cs ih =>
    simp only [List.foldl_cons]
    exact le_trans (by omega) (ih _)

theorem parseUintLoop_digits (cs : List Char) (n : Nat)
    (hd : ∀ c ∈ cs, isDigit c = true)
    (hmax : cs.foldl (fun n c => n * 10 + (c.toNat - 48)) n ≤ maxUint64) :
    parseUintLoop cs n = .ok (cs.foldl (fun n c => n * 10 + (c.toNat - 48)) n) := by
  induction cs generalizing n with
  | nil => simp [parseUintLoop]
  | cons c cs ih =>
    have hc : 48 ≤ c.toNat ∧ c.toNat ≤ 57 := by
      have := hd c (List.mem_cons_self _ _)
      simpa [isDigit] using this
    simp only [List.foldl_cons] at hmax ⊢
    have h1 : n * 10 + (c.toNat - 48) ≤ maxUint64 :=
      le_trans (foldl_digits_le cs _) hmax
    have hstep : parseUintStep n c = .ok (n * 10 + (c.toNat - 48)) := by
      unfold parseUintStep
      have h2 : ¬ (c.toNat < 48 ∨ 57 < c.toNat) := by omega
      have h3 : ¬ (maxUint64 / 10 + 1 ≤ n) := by
        unfold maxUint64 at h1 ⊢
        omega
      have h4 : ¬ (maxUint64 < n * 10 + (c.toNat - 48)) := by omega
      simp only [h2, h3, h4, if_false]
    simp only [parseUintLoop, hstep]
    exact ih _ (fun x hx => hd x (List.mem_cons_of_mem _ hx)) hmax

theorem parseUintLoop_nondigit (cs : List Char) (n : Nat)
    (hd : cs.all isDigit = false) : ∃ e, parseUintLoop cs n = .error e := by
  induction cs generalizing n with
  | nil => simp at hd
  | cons c cs ih =>
    simp only [parseUintLoop]
    cases hstep : parseUintStep n c with
    | error e => exact ⟨e, rfl⟩
    | ok n1 =>
      simp only
      apply ih
      have hc : isDigit c = true := by
        unfold parseUintStep at hstep
        by_cases h : c.toNat < 48 ∨ 57 < c.toNat
        · simp [h] at hstep
        · simp only [isDigit, decide_eq_true_eq]
          omega
      simpa [hc] using hd

theorem parseUintLoop_append (xs ys : List Char) (n : Nat) :
    parseUintLoop (xs ++ ys) n =
      match parseUintLoop xs n with
      | .error e => .error e
      | .ok m => parseUintLoop ys m := by
  induction xs generalizing n with
  | nil => simp [parseUintLoop]
  | cons c cs ih =>
    simp only [List.cons_append, parseUintLoop]
    cases parseUintStep n c with
    | error e => rfl
    | ok n1 => exact ih n1

theorem digitChar_toNat (d : Nat) (h : d < 10) : (digitChar d).toNat = 48 + d := by
  interval_cases d <;> rfl

theorem formatBits_acc (fuel n : Nat) (acc : List Char) :
    formatBits fuel n acc = formatBits fuel n [] ++ acc := by
  induction fuel generalizing n acc with
  | zero => simp [formatBits]
  | succ f ih =>
    simp only [formatBits]
    split
    · simp
    · rw [ih (n / 10) (digitChar (n % 10) :: acc), ih (n / 10) [digitChar (n % 10)]]
      simp

theorem formatBits_digits (fuel n : Nat) (h : n < fuel) :
    ∀ c ∈ formatBits fuel n [], isDigit c = true := by
  induction fuel generalizing n with
  | zero => omega
  | succ f ih =>
    intro c hc
    simp only [formatBits] at hc
    split at hc
    · simp only [List.mem_singleton] at hc
      subst hc
      simp only [isDigit, decide_eq_true_eq, digitChar_toNat n (by omega)]
      omega
    · rw [formatBits_acc] at hc
      rcases List.mem_append.mp hc with hc | hc
      · exact ih (n / 10) (by omega) c hc
      · simp only [List.mem_singleton] at hc
        subst hc
        simp only [isDigit, decide_eq_true_eq, digitChar_toNat (n % 10) (by omega)]
        omega

theorem formatBits_ne_nil (fuel n : Nat) (h : n < fuel) : formatBits fuel n [] ≠ [] := by
  cases fuel with
  | zero => omega
  | succ f =>
    simp only [formatBits]
    split
    · simp
    · rw [formatBits_acc]
      simp

theorem parseUintLoop_formatBits (fuel n : Nat) (h : n < fuel) (hmax : n ≤ maxUint64) :
    parseUintLoop (formatBits fuel n []) 0 = .ok n := by
  induction fuel generalizing n with
  | zero => omega
  | succ f ih =>
    simp only [formatBits]
    split
    · rename_i hlt
      simp only [parseUintLoop, parseUintStep, digitChar_toNat n hlt]
      have h2 : ¬ (48 + n < 48 ∨ 57 < 48 + n) := by omega
      have h3 : ¬ (maxUint64 / 10 + 1 ≤ 0) := by omega
      have h4 : 0 * 10 + (48 + n - 48) = n := by omega
      have h5 : ¬ (maxUint64 < n) := by omega
      simp only [h2, h3, h4, h5, if_false]
    · rename_i hge
      rw [formatBits_acc, parseUintLoop_append, ih (n / 10) (by omega) (by omega)]
      simp only [parseUintLoop, parseUintStep, digitChar_toNat (n % 10) (by omega)]
      have h2 : ¬ (48 + n % 10 < 48 ∨ 57 < 48 + n % 10) := by omega
      have h3 : ¬ (maxUint64 / 10 + 1 ≤ n / 10) := by
        unfold maxUint64 at hmax ⊢
        omega
      have h4 : n / 10 * 10 + (48 + n % 10 - 48) = n := by omega
      have h5 : ¬ (maxUint64 < n) := by omega
      simp only [h2, h3, h4, h5, if_false]

theorem ParseUint_FormatUint (n : Nat) (hmax : n ≤ maxUint64) :
    ParseUint (FormatUint n) = .ok n := by
  unfold ParseUint FormatUint
  rw [if_neg (formatBits_ne_nil _ _ (by omega))]
  exact parseUintLoop_formatBits _ _ (by omega) hmax

theorem isDigit_ne_sign (c : Char) (h : isDigit c = true) : ¬ (c = '+' ∨ c = '-') := by
  simp only [isDigit, decide_eq_true_eq] at h
  rintro (rfl | rfl)
  · exact absurd h.1 (by decide)
  · exact absurd h.1 (by decide)

theorem ParseInt_unsigned (c : Char) (cs : List Char) (n : Nat)
    (hc : isDigit c = true) (hp : ParseUint (c :: cs) = .ok n) (hn : n < 2 ^ 63) :
    ParseInt (c :: cs) = .ok (n : Int) := by
  have hs := isDigit_ne_sign c hc
  have hm : ¬ (c = '-') := fun h => hs (Or.inr h)
  have hr : ¬ (2 ^ 63 ≤ n) := by omega
  simp only [ParseInt, if_neg hs, hp]
  simp only [hm, hr, not_false_eq_true, and_false, false_and, if_false]

theorem ParseInt_FormatInt (i : Int) (hlo : -2 ^ 63 ≤ i) (hhi : i < 2 ^ 63) :
    ParseInt (FormatInt i) = .ok i := by
  unfold FormatInt
  split
  · rename_i hneg
    have hmax : (-i).toNat ≤ maxUint64 := by
      unfold maxUint64
      omega
    have hr : ¬ (2 ^ 63 < (-i).toNat) := by omega
    have hv : -(((-i).toNat : Nat) : Int) = i := by omega
    simp only [ParseInt, ParseUint_FormatUint _ hmax, hr, hv, or_true, if_true, and_false,
      not_true_eq_false, false_and, if_false]
  · rename_i hnn
    have hmax : i.toNat ≤ maxUint64 := by
      unfold maxUint64
      omega
    have hne : FormatUint i.toNat ≠ [] := formatBits_ne_nil _ _ (by omega)
    have hp := ParseUint_FormatUint i.toNat hmax
    have hdig := formatBits_digits (i.toNat + 1) i.toNat (by omega)
    change ∀ c ∈ FormatUint i.toNat, isDigit c = true at hdig
    cases hf : FormatUint i.toNat with
    | nil => exact absurd hf hne
    | cons c cs =>
      rw [hf] at hp hdig
      have := ParseInt_unsigned c cs i.toNat (hdig c (List.mem_cons_self _ _)) hp (by omega)
      rw [this]
      congr 1
      omega

/-! ### parseTTL -/

theorem ParseInt_digits (s : List Char) (hne : s ≠ [])
    (hd : ∀ c ∈ s, isDigit c = true) (hn : decimalValue s < 2 ^ 63) :
    ParseInt s = .ok (decimalValue s : Int) := by
  cases s with
  | nil => exact absurd rfl hne
  | cons c cs =>
    apply ParseInt_unsigned c cs _ (hd c (List.mem_cons_self _ _)) _ hn
    unfold ParseUint
    rw [if_neg hne]
    apply parseUintLoop_digits _ _ hd
    unfold maxUint64
    unfold decimalValue at hn
    omega

theorem ParseInt_not_signedDecimal (s : List Char) (h : isSignedDecimal s = false) :
    ∃ e, ParseInt s = .error e := by
  cases s with
  | nil => exact ⟨_, rfl⟩
  | cons c cs =>
    simp only [isSignedDecimal] at h
    simp only [ParseInt]
    by_cases hs : c = '+' ∨ c = '-'
    · simp only [if_pos hs] at h ⊢
      by_cases hcs : cs = []
      · subst hcs
        exact ⟨_, rfl⟩
      · simp only [ne_eq, hcs, not_false_eq_true, decide_True, Bool.true_and] at h
        obtain ⟨e, he⟩ := parseUintLoop_nondigit cs 0 h
        refine ⟨e, ?_⟩
        simp only [ParseUint, if_neg hcs, he]
    · simp only [if_neg hs] at h ⊢
      obtain ⟨e, he⟩ := parseUintLoop_nondigit (c :: cs) 0 h
      refine ⟨e, ?_⟩
      simp only [ParseUint, he]
      simp

theorem wrapInt64_of_range (x : Int) (hlo : -2 ^ 63 ≤ x) (hhi : x < 2 ^ 63) :
    wrapInt64 x = x := by
  unfold wrapInt64
  omega

theorem HasSuffix_singleton_mem (s : List Char) (x : Char) (h : HasSuffix s [x] = true) :
    x ∈ s := by
  unfold HasSuffix at h
  rw [List.isSuffixOf_iff_suffix] at h
  exact h.subset (List.mem_singleton_self x)

theorem digits_no_unit_suffix (s : List Char) (hd : ∀ c ∈ s, isDigit c = true) :
    ¬ (HasSuffix s ['m'] = true ∨ HasSuffix s ['h'] = true ∨ HasSuffix s ['s'] = true) := by
  rintro (h | h | h)
  · exact absurd (hd _ (HasSuffix_singleton_mem s _ h)) (by decide)
  · exact absurd (hd _ (HasSuffix_singleton_mem s _ h)) (by decide)
  · exact absurd (hd _ (HasSuffix_singleton_mem s _ h)) (by decide)

/-- C4 (as stated, refuted): the bare decimal integer `153722868` is accepted without
error, but the result is the wrapped product `-9223371993709551616` nanoseconds, not
153722868 minutes. -/
theorem parseTTL_bare_integer_wraps :
    (∀ c ∈ "153722868".toList, isDigit c = true) ∧
    decimalValue "153722868".toList = 153722868 ∧
    parseTTL (fun _ => none) "153722868".toList = .ok (-9223371993709551616) ∧
    ((153722868 : Int) * minute ≠ -9223371993709551616) := by
  refine ⟨by decide, by decide, by decide, by decide⟩

/-- C4 (amended): the empty string yields exactly 15 minutes; a bare decimal integer
`n ≤ 153722867` (so that `n` minutes fit a 64-bit nanosecond count) yields exactly `n`
minutes with no error; a non-empty string ending in `s`, `m` or `h` yields whatever
`time.ParseDuration` yields for it; every other string that is not an optionally signed
decimal integer yields an error. -/
theorem parseTTL_spec (parseDuration : List Char → Option Int) :
    parseTTL parseDuration [] = .ok (15 * minute) ∧
    (∀ s : List Char, s ≠ [] → (∀ c ∈ s, isDigit c = true) → decimalValue s ≤ 153722867 →
      parseTTL parseDuration s = .ok ((decimalValue s : Int) * minute)) ∧
    (∀ s : List Char, s ≠ [] →
      (HasSuffix s ['m'] = true ∨ HasSuffix s ['h'] = true ∨ HasSuffix s ['s'] = true) →
      parseTTL parseDuration s =
        match parseDuration s with
        | some d => .ok d
        | none => .error .invalidDuration) ∧
    (∀ s : List Char, s ≠ [] →
      ¬ (HasSuffix s ['m'] = true ∨ HasSuffix s ['h'] = true ∨ HasSuffix s ['s'] = true) →
      isSignedDecimal s = false → ∃ e, parseTTL parseDuration s = .error e) := by
  refine ⟨rfl, ?_, ?_, ?_⟩
  · intro s hne hd hn
    have hp := ParseInt_digits s hne hd (by omega)
    have h1 : wrapInt64 (decimalValue s : Int) = decimalValue s :=
      wrapInt64_of_range _ (by omega) (by omega)
    have h2 : wrapInt64 ((decimalValue s : Int) * minute) = (decimalValue s : Int) * minute := by
      apply wrapInt64_of_range
      · unfold minute
        omega
      · unfold minute
        omega
    simp only [parseTTL, if_neg hne, if_neg (digits_no_unit_suffix s hd), Atoi, hp, h1, h2]
  · intro s hne hs
    simp only [parseTTL, if_neg hne, if_pos hs]
  · intro s hne hs hsd
    obtain ⟨e, he⟩ := ParseInt_not_signedDecimal s hsd
    exact ⟨.num e, by simp only [parseTTL, if_neg hne, if_neg hs, Atoi, he]⟩

/-- Witness for C4: the four parts of `parseTTL_spec` at `""`, `"20"`, `"15m"` and
`"1.5"`, with a `time.ParseDuration` that knows `"15m"`. -/
theorem parseTTL_spec_witness :
    parseTTL (fun s => if s = "15m".toList then some (15 * minute) else none) [] =
      .ok (15 * minute) ∧
    parseTTL (fun s => if s = "15m".toList then some (15 * minute) else none) "20".toList =
      .ok (20 * minute) ∧
    parseTTL (fun s => if s = "15m".toList then some (15 * minute) else none) "15m".toList =
      .ok (15 * minute) ∧
    (∃ e, parseTTL (fun s => if s = "15m".toList then some (15 * minute) else none)
      "1.5".toList = .error e) := by
  have h := parseTTL_spec (fun s => if s = "15m".toList then some (15 * minute) else none)
  refine ⟨h.1, ?_, ?_, ?_⟩
  · exact h.2.1 "20".toList (by decide) (by decide) (by decide)
  · exact h.2.2.1 "15m".toList (by decide) (by decide)
  · exact h.2.2.2 "1.5".toList (by decide) (by decide) (by decide)

/-! ### GenerateToken and VerifyToken -/

theorem SubjectInt_issuedClaims (userID : Int) (email : List Char) (now dur : Int)
    (hlo : -2 ^ 63 ≤ userID) (hhi : userID < 2 ^ 63) :
    SubjectInt (issuedClaims userID email now dur) = userID := by
  simp only [SubjectInt, issuedClaims, ParseInt_FormatInt userID hlo hhi]

theorem Validate_issuedClaims (userID : Int) (email : List Char) (now dur now1 : Int)
    (h1 : now1 < NewNumericDate (now + dur)) :
    Validate (issuedClaims userID email now dur) now1 = none := by
  simp [Validate, expiredAt, notValidYetAt, issuedClaims, h1]

theorem VerifyToken_issued (J : JwtLib) (userID : Int) (email secret : List Char)
    (now dur now1 now2 : Int) (hsec : secret ≠ [])
    (hJ : J.parseSigned (J.SignedString (issuedClaims userID email now dur) secret) secret =
      .ok (issuedClaims userID email now dur))
    (h1 : now1 < NewNumericDate (now + dur)) (h2 : now2 < NewNumericDate (now + dur)) :
    VerifyToken J now1 now2 (J.SignedString (issuedClaims userID email now dur) secret) secret =
      .ok (issuedClaims userID email now dur) := by
  have h3 : ¬ (NewNumericDate (now + dur) - now2 ≤ 0) := by omega
  simp only [VerifyToken, if_neg hsec, ParseWithClaims, hJ,
    Validate_issuedClaims userID email now dur now1 h1]
  simp only [issuedClaims, if_neg h3]

/-- C3 (as stated, refuted): with the valid TTL `"0"` and the non-empty secret `"k"`,
`GenerateToken` succeeds but `VerifyToken`, called at the very instant of issue, rejects
the token as expired. -/
theorem roundtrip_fails_for_zero_ttl :
    GenerateToken (demoJwt [demoClaims 0]) (fun _ => none) 5000000000 7 "a@b.c".toList
        "k".toList "0".toList =
      .ok ((demoJwt [demoClaims 0]).SignedString (demoClaims 0) "k".toList, 5) ∧
    VerifyToken (demoJwt [demoClaims 0]) 5000000000 5000000000
        ((demoJwt [demoClaims 0]).SignedString (demoClaims 0) "k".toList) "k".toList =
      .error (.jwt .expired) := by
  refine ⟨by rfl, by rfl⟩

/-- C3 (amended): for every `int64` user id, every e-mail, every non-empty secret and
every TTL that `parseTTL` accepts, `GenerateToken` succeeds, and `VerifyToken` applied to
the produced token with the same secret at a time before the token's expiry (the time of
issue plus the lifetime, truncated to the second) succeeds with claims whose
`SubjectInt()` is the id and whose `Email` is the e-mail.  The token library is assumed
to read back the claims it signed under the same key. -/
theorem GenerateToken_VerifyToken_roundtrip (J : JwtLib)
    (parseDuration : List Char → Option Int) (userID : Int) (email secret ttl : List Char)
    (now now1 now2 dur : Int)
    (hlo : -2 ^ 63 ≤ userID) (hhi : userID < 2 ^ 63) (hsec : secret ≠ [])
    (httl : parseTTL parseDuration ttl = .ok dur)
    (hJ : J.parseSigned (J.SignedString (issuedClaims userID email now dur) secret) secret =
      .ok (issuedClaims userID email now dur))
    (h1 : now1 < NewNumericDate (now + dur)) (h2 : now2 < NewNumericDate (now + dur)) :
    ∃ tok claims,
      GenerateToken J parseDuration now userID email secret ttl = .ok (tok, Unix (now + dur)) ∧
      VerifyToken J now1 now2 tok secret = .ok claims ∧
      SubjectInt claims = userID ∧ claims.Email = email := by
  refine ⟨J.SignedString (issuedClaims userID email now dur) secret,
    issuedClaims userID email now dur, ?_, ?_, ?_, rfl⟩
  · simp only [GenerateToken, if_neg hsec, httl]
  · exact VerifyToken_issued J userID email secret now dur now1 now2 hsec hJ h1 h2
  · exact SubjectInt_issuedClaims userID email now dur hlo hhi

/-- Witness for C3: user 7, secret `"k"`, TTL `"20"` (minutes), issued at second 5 and
verified one second later. -/
theorem GenerateToken_VerifyToken_roundtrip_witness :
    ∃ tok claims,
      GenerateToken (demoJwt [demoClaims (20 * minute)]) (fun _ => none) 5000000000 7
        "a@b.c".toList "k".toList "20".toList = .ok (tok, Unix (5000000000 + 20 * minute)) ∧
      VerifyToken (demoJwt [demoClaims (20 * minute)]) 6000000000 6000000001 tok "k".toList =
        .ok claims ∧
      SubjectInt claims = 7 ∧ claims.Email = "a@b.c".toList :=
  GenerateToken_VerifyToken_roundtrip (demoJwt [demoClaims (20 * minute)]) (fun _ => none) 7
    "a@b.c".toList "k".toList "20".toList 5000000000 6000000000 6000000001 (20 * minute)
    (by decide) (by decide) (by decide) (by decide) (by decide) (by decide) (by decide)

theorem NewNumericDate_le (t : Int) : NewNumericDate t ≤ t := by
  unfold NewNumericDate second
  omega

theorem VerifyToken_expired_aux (J : JwtLib) (tok secret : List Char) (c : CustomClaims)
    (now1 now2 : Int) (hsec : secret ≠ []) (hsig : J.parseSigned tok secret = .ok c)
    (hnbf : notValidYetAt c now1 = false)
    (hexp : c.ExpiresAt = none ∨ ∃ e, c.ExpiresAt = some e ∧ (e ≤ now1 ∨ e ≤ now2)) :
    ∃ err, VerifyToken J now1 now2 tok secret = .error err ∧
      isExpiryError err = true ∧ isSignatureError err = false := by
  simp only [VerifyToken, if_neg hsec, ParseWithClaims, hsig, Validate, hnbf]
  cases hx : expiredAt c now1 with
  | true => exact ⟨_, rfl, rfl, rfl⟩
  | false =>
    simp only
    rcases hexp with hnone | ⟨e, he, hle⟩
    · simp only [hnone]
      exact ⟨_, rfl, rfl, rfl⟩
    · simp only [he]
      have hle2 : e - now2 ≤ 0 := by
        rcases hle with h | h
        · simp [expiredAt, he] at hx
          omega
        · omega
      simp only [if_pos hle2]
      exact ⟨_, rfl, rfl, rfl⟩

/-- C9 (as stated, refuted): at second 7, (1) a token that expired at second 5 and is
correctly signed with the empty secret is rejected with `secret not configured`, and (2) a
correctly signed token without expiry whose not-before time is second 9 is rejected with
the validator's not-valid-yet error; neither is an expiry error. -/
theorem VerifyToken_error_not_expiry :
    ((demoJwt [demoClaims 0]).parseSigned
        ((demoJwt [demoClaims 0]).SignedString (demoClaims 0) []) [] = .ok (demoClaims 0) ∧
      (demoClaims 0).ExpiresAt = some 5000000000 ∧
      VerifyToken (demoJwt [demoClaims 0]) 7000000000 7000000000
        ((demoJwt [demoClaims 0]).SignedString (demoClaims 0) []) [] =
        .error .secretNotConfigured ∧
      isExpiryError .secretNotConfigured = false) ∧
    ((demoJwt [demoNotBeforeClaims]).parseSigned
        ((demoJwt [demoNotBeforeClaims]).SignedString demoNotBeforeClaims "k".toList)
        "k".toList = .ok demoNotBeforeClaims ∧
      demoNotBeforeClaims.ExpiresAt = none ∧
      VerifyToken (demoJwt [demoNotBeforeClaims]) 7000000000 7000000000
        ((demoJwt [demoNotBeforeClaims]).SignedString demoNotBeforeClaims "k".toList)
        "k".toList = .error (.jwt .notValidYet) ∧
      isExpiryError (.jwt .notValidYet) = false) := by
  refine ⟨⟨by rfl, by rfl, by rfl, by rfl⟩, ⟨by rfl, by rfl, by rfl, by rfl⟩⟩

/-- C9 (amended): for every non-empty secret and every token correctly signed with it
whose not-before claim, if any, has been reached: if the expiry claim is absent or is not
strictly later than the current time (either reading of the clock), `VerifyToken` returns
an error and no claims, and the error is an expiry error, not a signature error.  So a
token issued with TTL `"1s"` fails verification with an expiry error once 2 seconds have
elapsed. -/
theorem VerifyToken_expired (J : JwtLib) :
    (∀ (tok secret : List Char) (c : CustomClaims) (now1 now2 : Int),
      secret ≠ [] → J.parseSigned tok secret = .ok c → notValidYetAt c now1 = false →
      (c.ExpiresAt = none ∨ ∃ e, c.ExpiresAt = some e ∧ (e ≤ now1 ∨ e ≤ now2)) →
      ∃ err, VerifyToken J now1 now2 tok secret = .error err ∧
        isExpiryError err = true ∧ isSignatureError err = false) ∧
    (∀ (parseDuration : List Char → Option Int) (userID : Int) (email secret : List Char)
      (now now1 now2 : Int),
      secret ≠ [] → parseDuration "1s".toList = some second →
      J.parseSigned (J.SignedString (issuedClaims userID email now second) secret) secret =
        .ok (issuedClaims userID email now second) →
      now + 2 * second ≤ now1 → now1 ≤ now2 →
      ∃ tok unix err,
        GenerateToken J parseDuration now userID email secret "1s".toList = .ok (tok, unix) ∧
        VerifyToken J now1 now2 tok secret = .error err ∧
        isExpiryError err = true ∧ isSignatureError err = false) := by
  refine ⟨fun tok secret c now1 now2 hsec hsig hnbf hexp =>
    VerifyToken_expired_aux J tok secret c now1 now2 hsec hsig hnbf hexp, ?_⟩
  intro parseDuration userID email secret now now1 now2 hsec hpd hJ h1 h2
  have httl : parseTTL parseDuration "1s".toList = .ok second := by
    have hs : HasSuffix "1s".toList ['m'] = true ∨ HasSuffix "1s".toList ['h'] = true ∨
        HasSuffix "1s".toList ['s'] = true := by decide
    have hne : "1s".toList ≠ [] := by decide
    simp only [parseTTL, if_neg hne, if_pos hs, hpd]
  have hle := NewNumericDate_le (now + second)
  have hsecond : second = 1000000000 := rfl
  obtain ⟨err, he, hx, hy⟩ := VerifyToken_expired_aux J
    (J.SignedString (issuedClaims userID email now second) secret) secret
    (issuedClaims userID email now second) now1 now2 hsec hJ rfl
    (Or.inr ⟨NewNumericDate (now + second), rfl, Or.inl (by omega)⟩)
  refine ⟨J.SignedString (issuedClaims userID email now second) secret,
    Unix (now + second), err, ?_, he, hx, hy⟩
  simp only [GenerateToken, if_neg hsec, httl]

/-- Witness for C9: a token for user 7 issued at second 5 with TTL `"1s"` and secret `"k"`
is rejected with an expiry error at second 7. -/
theorem VerifyToken_expired_witness :
    ∃ tok unix err,
      GenerateToken (demoJwt [demoClaims second]) (fun _ => some second) 5000000000 7
        "a@b.c".toList "k".toList "1s".toList = .ok (tok, unix) ∧
      VerifyToken (demoJwt [demoClaims second]) 7000000000 7000000000 tok "k".toList =
        .error err ∧
      isExpiryError err = true ∧ isSignatureError err = false :=
  (VerifyToken_expired (demoJwt [demoClaims second])).2 (fun _ => some second) 7
    "a@b.c".toList "k".toList 5000000000 7000000000 7000000000
    (by decide) rfl (by rfl) (by decide) (by decide)

/-! ### AuthMiddleware -/

theorem cutAtSpace_append (scheme rest : List Char) (h : ∀ c ∈ scheme, c ≠ ' ') :
    cutAtSpace (scheme ++ ' ' :: rest) = some (scheme, rest) := by
  induction scheme with
  | nil => simp [cutAtSpace]
  | cons c cs ih =>
    have hc : c ≠ ' ' := h c (List.mem_cons_self _ _)
    have ih2 := ih (fun x hx => h x (List.mem_cons_of_mem _ hx))
    rw [List.cons_append]
    simp only [cutAtSpace, if_neg hc, ih2]

theorem cutAtSpace_some (s before after : List Char) (h : cutAtSpace s = some (before, after)) :
    s = before ++ ' ' :: after := by
  induction s generalizing before with
  | nil => simp [cutAtSpace] at h
  | cons c cs ih =>
    simp only [cutAtSpace] at h
    split at h
    · rename_i hc
      simp only [Option.some.injEq, Prod.mk.injEq] at h
      obtain ⟨rfl, rfl⟩ := h
      simp [hc]
    · cases hcut : cutAtSpace cs with
      | none => simp [hcut] at h
      | some p =>
        obtain ⟨a, b⟩ := p
        simp only [hcut, Option.some.injEq, Prod.mk.injEq] at h
        obtain ⟨rfl, rfl⟩ := h
        rw [ih a hcut]
        rfl

theorem ToLower_bearer_no_space (scheme : List Char) (h : ToLower scheme = "bearer".toList) :
    ∀ c ∈ scheme, c ≠ ' ' := by
  intro c hc hsp
  subst hsp
  have hm : Char.toLower ' ' ∈ ToLower scheme := List.mem_map_of_mem _ hc
  rw [h] at hm
  exact absurd hm (by decide)

theorem AuthMiddleware_cut_none (J : JwtLib) (now1 now2 : Int) (secret auth : List Char)
    (h : cutAtSpace auth = none) :
    AuthMiddleware J now1 now2 secret auth = .responded 401 .empty := by
  unfold AuthMiddleware
  split
  · rfl
  · simp only [SplitN2, h]

theorem AuthMiddleware_cut_some (J : JwtLib) (now1 now2 : Int) (secret auth a b : List Char)
    (h : cutAtSpace auth = some (a, b)) :
    AuthMiddleware J now1 now2 secret auth =
      if ToLower a ≠ "bearer".toList then .responded 401 .empty
      else if TrimSpace b = [] then .responded 401 .empty
      else
        match VerifyToken J now1 now2 (TrimSpace b) secret with
        | .error _ => .responded 401 .empty
        | .ok claims => .next (SubjectInt claims) := by
  have hne : auth ≠ [] := by
    rintro rfl
    simp [cutAtSpace] at h
  simp only [AuthMiddleware, if_neg hne, SplitN2, h]

/-- C5: `AuthMiddleware` invokes the wrapped handler if and only if the `Authorization`
header has the form `<scheme> <token>` with the scheme equal to `bearer` ignoring case and
a non-empty token (the text after the first space, surrounding white space removed, as
the code extracts it), and `VerifyToken` succeeds on that token with the access secret;
the context value under `CtxUserIDKey` is then the `SubjectInt()` of the verified claims.
In every other case the response is 401 with an empty body and the wrapped handler is
not invoked. -/
theorem AuthMiddleware_gate (J : JwtLib) (now1 now2 : Int) (accessSecret auth : List Char) :
    (∀ uid : Int, AuthMiddleware J now1 now2 accessSecret auth = .next uid ↔
      ∃ scheme rest claims, auth = scheme ++ ' ' :: rest ∧
        ToLower scheme = "bearer".toList ∧ TrimSpace rest ≠ [] ∧
        VerifyToken J now1 now2 (TrimSpace rest) accessSecret = .ok claims ∧
        uid = SubjectInt claims) ∧
    ((¬ ∃ scheme rest claims, auth = scheme ++ ' ' :: rest ∧
        ToLower scheme = "bearer".toList ∧ TrimSpace rest ≠ [] ∧
        VerifyToken J now1 now2 (TrimSpace rest) accessSecret = .ok claims) →
      AuthMiddleware J now1 now2 accessSecret auth = .responded 401 .empty) := by
  have key : ∀ scheme rest, auth = scheme ++ ' ' :: rest →
      ToLower scheme = "bearer".toList → TrimSpace rest ≠ [] →
      AuthMiddleware J now1 now2 accessSecret auth =
        match VerifyToken J now1 now2 (TrimSpace rest) accessSecret with
        | .error _ => .responded 401 .empty
        | .ok claims => .next (SubjectInt claims) := by
    intro scheme rest hform hlow htok
    have hcut := cutAtSpace_append scheme rest (ToLower_bearer_no_space scheme hlow)
    rw [← hform] at hcut
    rw [AuthMiddleware_cut_some J now1 now2 accessSecret auth scheme rest hcut]
    simp only [ne_eq, hlow, not_true_eq_false, if_false, if_neg htok]
  have back : ∀ out, AuthMiddleware J now1 now2 accessSecret auth = out →
      out = .responded 401 .empty ∨
      ∃ scheme rest claims, auth = scheme ++ ' ' :: rest ∧
        ToLower scheme = "bearer".toList ∧ TrimSpace rest ≠ [] ∧
        VerifyToken J now1 now2 (TrimSpace rest) accessSecret = .ok claims ∧
        out = .next (SubjectInt claims) := by
    intro out hout
    cases hcut : cutAtSpace auth with
    | none =>
      rw [AuthMiddleware_cut_none J now1 now2 accessSecret auth hcut] at hout
      exact Or.inl hout.symm
    | some p =>
      obtain ⟨a, b⟩ := p
      rw [AuthMiddleware_cut_some J now1 now2 accessSecret auth a b hcut] at hout
      by_cases hlow : ToLower a = "bearer".toList
      · by_cases htok : TrimSpace b = []
        · simp only [ne_eq, hlow, not_true_eq_false, if_false, if_pos htok] at hout
          exact Or.inl hout.symm
        · simp only [ne_eq, hlow, not_true_eq_false, if_false, if_neg htok] at hout
          cases hv : VerifyToken J now1 now2 (TrimSpace b) accessSecret with
          | error e =>
            simp only [hv] at hout
            exact Or.inl hout.symm
          | ok claims =>
            simp only [hv] at hout
            exact Or.inr ⟨a, b, claims, cutAtSpace_some auth a b hcut, hlow, htok, hv,
              hout.symm⟩
      · simp only [ne_eq, hlow, not_false_eq_true, if_true] at hout
        exact Or.inl hout.symm
  constructor
  · intro uid
    constructor
    · intro h
      rcases back _ h with h401 | ⟨scheme, rest, claims, hform, hlow, htok, hv, hout⟩
      · cases h401
      · exact ⟨scheme, rest, claims, hform, hlow, htok, hv, by simpa using hout⟩
    · rintro ⟨scheme, rest, claims, hform, hlow, htok, hv, rfl⟩
      rw [key scheme rest hform hlow htok, hv]
  · intro hno
    rcases back _ rfl with h401 | ⟨scheme, rest, claims, hform, hlow, htok, hv, _⟩
    · exact h401
    · exact absurd ⟨scheme, rest, claims, hform, hlow, htok, hv⟩ hno

/-- Witness for C5: the header `BeArEr  <token> ` with a valid access token of user 7
reaches the wrapped handler with user id 7; the header `Basic <token>` is answered 401. -/
theorem AuthMiddleware_gate_witness :
    AuthMiddleware (demoJwt [demoClaims minute]) 6000000000 6000000000 "k".toList
        ("BeArEr  ".toList ++
          (demoJwt [demoClaims minute]).SignedString (demoClaims minute) "k".toList ++ [' ']) =
      .next 7 ∧
    AuthMiddleware (demoJwt [demoClaims minute]) 6000000000 6000000000 "k".toList
        ("Basic ".toList ++
          (demoJwt [demoClaims minute]).SignedString (demoClaims minute) "k".toList) =
      .responded 401 .empty := by
  constructor
  · exact ((AuthMiddleware_gate (demoJwt [demoClaims minute]) 6000000000 6000000000
      "k".toList _).1 7).2
      ⟨"BeArEr".toList,
        ' ' :: (demoJwt [demoClaims minute]).SignedString (demoClaims minute) "k".toList
          ++ [' '],
        demoClaims minute, by rfl, by rfl, by decide, by rfl, by rfl⟩
  · exact (AuthMiddleware_gate (demoJwt [demoClaims minute]) 6000000000 6000000000
      "k".toList _).2 (by
        rintro ⟨scheme, rest, claims, hform, hlow, -⟩
        have hno := ToLower_bearer_no_space scheme hlow
        have hcut := cutAtSpace_append scheme rest hno
        rw [← hform] at hcut
        have h2 : cutAtSpace ("Basic ".toList ++
            (demoJwt [demoClaims minute]).SignedString (demoClaims minute) "k".toList) =
            some ("Basic".toList, (demoJwt [demoClaims minute]).SignedString
              (demoClaims minute) "k".toList) := by rfl
        rw [h2] at hcut
        simp only [Option.some.injEq, Prod.mk.injEq] at hcut
        rw [← hcut.1] at hlow
        exact absurd hlow (by decide))

/-! ### Refresh -/

theorem RefreshRotate_all_or_nothing (J : JwtLib) (parseDuration : List Char → Option Int)
    (env : Env) (clk : RefreshClock) (faults : RefreshFaults) (db : DB) (req : refreshReq)
    (claims : CustomClaims) :
    ((RefreshRotate J parseDuration env clk faults db req claims).1.status = 200 ∧
      ∃ row access exp,
        (RefreshRotate J parseDuration env clk faults db req claims).1.body =
          .tokens ⟨access, row.token, exp⟩ ∧
        (RefreshRotate J parseDuration env clk faults db req claims).2 =
          { db with refresh_tokens := deleteToken db.refresh_tokens req.RefreshToken ++ [row] }) ∨
    ((RefreshRotate J parseDuration env clk faults db req claims).1.status = 500 ∧
      (RefreshRotate J parseDuration env clk faults db req claims).2 = db) := by
  by_cases hb : faults.begin = true
  · simp [RefreshRotate, hb]
  · cases ha : GenerateToken J parseDuration clk.access (SubjectInt claims) claims.Email
        env.ACCESS_SECRET env.ACCESS_TTL with
    | error e => simp [RefreshRotate, hb, ha]
    | ok pa =>
      obtain ⟨access, expAccess⟩ := pa
      cases hr : GenerateToken J parseDuration clk.refresh (SubjectInt claims) claims.Email
          env.REFRESH_SECRET env.REFRESH_TTL with
      | error e => simp [RefreshRotate, hb, ha, hr]
      | ok pr =>
        obtain ⟨refresh, expRefresh⟩ := pr
        by_cases hd : faults.delete = true
        · simp [RefreshRotate, hb, ha, hr, txDelete, txInsert, hd]
        · by_cases hi : faults.insert = true
          · simp [RefreshRotate, hb, ha, hr, txDelete, txInsert, hd, hi]
          · cases hins : insertToken (deleteToken db.refresh_tokens req.RefreshToken)
                ⟨SubjectInt claims, refresh, expRefresh⟩ with
            | error e => simp [RefreshRotate, hb, ha, hr, txDelete, txInsert, hd, hi, hins]
            | ok rows =>
              have hrows : rows = deleteToken db.refresh_tokens req.RefreshToken ++
                  [⟨SubjectInt claims, refresh, expRefresh⟩] := by
                unfold insertToken at hins
                split at hins
                · cases hins
                · simpa using hins.symm
              by_cases hc : faults.commit = true
              · simp [RefreshRotate, hb, ha, hr, txDelete, txInsert, txCommit, hd, hi, hins, hc]
              · have hval : RefreshRotate J parseDuration env clk faults db req claims =
                    (⟨200, .tokens ⟨access, refresh, expAccess⟩⟩,
                      { db with refresh_tokens := rows }) := by
                  simp [RefreshRotate, hb, ha, hr, txDelete, txInsert, txCommit, hd, hi, hins,
                    hc]
                left
                rw [hval, hrows]
                exact ⟨rfl, ⟨SubjectInt claims, refresh, expRefresh⟩, access, expAccess, rfl,
                  rfl⟩

theorem Refresh_outcome (J : JwtLib) (parseDuration : List Char → Option Int)
    (env : Env) (clk : RefreshClock) (faults : RefreshFaults) (db : DB)
    (body : Option refreshReq) :
    ((Refresh J parseDuration env clk faults db body).1.status = 200 ∧
      ∃ req row access exp, body = some req ∧
        (Refresh J parseDuration env clk faults db body).1.body =
          .tokens ⟨access, row.token, exp⟩ ∧
        (Refresh J parseDuration env clk faults db body).2 =
          { db with refresh_tokens := deleteToken db.refresh_tokens req.RefreshToken ++ [row] }) ∨
    ((Refresh J parseDuration env clk faults db body).1.status ≠ 200 ∧
      (Refresh J parseDuration env clk faults db body).2 = db) := by
  cases body with
  | none => exact Or.inr ⟨by simp [Refresh], rfl⟩
  | some req =>
    simp only [Refresh]
    cases hck : RefreshCheck J env clk faults db req with
    | error r =>
      right
      simp only [and_true]
      unfold RefreshCheck at hck
      split at hck
      · cases hck
        simp
      · dsimp only at hck
        split at hck
        · cases hck
          simp
        · cases hck
    | ok claims =>
      simp only
      rcases RefreshRotate_all_or_nothing J parseDuration env clk faults db req claims with
        ⟨h200, row, access, exp, hbody, hdb⟩ | ⟨h500, hdb⟩
      · exact Or.inl ⟨h200, req, row, access, exp, rfl, hbody, hdb⟩
      · exact Or.inr ⟨by rw [h500]; decide, hdb⟩

/-- C2: `Refresh` either answers 200 with the rows of the old token deleted and exactly
one new refresh-token row (the one of the returned refresh token) inserted, or answers
with an error status and leaves the store exactly as it was.  A failing `DELETE`, token
generation, `INSERT` or `COMMIT` falls in the second case. -/
theorem Refresh_all_or_nothing (J : JwtLib) (parseDuration : List Char → Option Int)
    (env : Env) (clk : RefreshClock) (faults : RefreshFaults) (db : DB)
    (body : Option refreshReq) :
    ((Refresh J parseDuration env clk faults db body).1.status = 200 ∧
      ∃ req row access exp, body = some req ∧
        (Refresh J parseDuration env clk faults db body).1.body =
          .tokens ⟨access, row.token, exp⟩ ∧
        (Refresh J parseDuration env clk faults db body).2 =
          { db with refresh_tokens := deleteToken db.refresh_tokens req.RefreshToken ++ [row] }) ∨
    ((Refresh J parseDuration env clk faults db body).1.status ≠ 200 ∧
      (Refresh J parseDuration env clk faults db body).2 = db) :=
  Refresh_outcome J parseDuration env clk faults db body

theorem refreshTokenExists_after_rotation (rows : List RefreshTokenRow) (row : RefreshTokenRow)
    (t : List Char) (uid dbNow : Int) (hne : row.token ≠ t) :
    refreshTokenExists (deleteToken rows t ++ [row]) t uid dbNow = false := by
  unfold refreshTokenExists deleteToken
  rw [List.any_eq_false]
  intro r hr
  have hrt : r.token ≠ t := by
    rcases List.mem_append.mp hr with h | h
    · simpa using (List.mem_filter.mp h).2
    · rw [List.mem_singleton] at h
      rw [h]
      exact hne
  simp [hrt]

theorem Refresh_status_401_of_no_row (J : JwtLib) (parseDuration : List Char → Option Int)
    (env : Env) (clk : RefreshClock) (faults : RefreshFaults) (db : DB) (t : List Char)
    (hno : ∀ uid, refreshTokenExists db.refresh_tokens t uid clk.dbNow = false) :
    (Refresh J parseDuration env clk faults db (some ⟨t⟩)).1.status = 401 := by
  simp only [Refresh, RefreshCheck]
  cases hv : VerifyToken J clk.verify1 clk.verify2 t env.REFRESH_SECRET with
  | error e => rfl
  | ok claims => simp [hno (SubjectInt claims)]

/-- The single-use property where it does hold: when `Refresh` answers 200 with a new
refresh token that differs from the one presented, every later `Refresh` with the old
string is answered 401. -/
theorem Refresh_single_use_of_new_token (J : JwtLib) (parseDuration : List Char → Option Int)
    (env : Env) (clk clk2 : RefreshClock) (faults faults2 : RefreshFaults) (db : DB)
    (t access refresh : List Char) (exp : Int)
    (h200 : (Refresh J parseDuration env clk faults db (some ⟨t⟩)).1 =
      ⟨200, .tokens ⟨access, refresh, exp⟩⟩)
    (hne : refresh ≠ t) :
    (Refresh J parseDuration env clk2 faults2
      (Refresh J parseDuration env clk faults db (some ⟨t⟩)).2 (some ⟨t⟩)).1.status = 401 := by
  rcases Refresh_outcome J parseDuration env clk faults db (some ⟨t⟩) with
    ⟨_, req, row, a, e, hreq, hbody, hdb⟩ | ⟨hst, _⟩
  · cases hreq
    rw [h200] at hbody
    simp only [Body.tokens.injEq, tokenResp.mk.injEq] at hbody
    apply Refresh_status_401_of_no_row
    intro uid
    rw [hdb]
    exact refreshTokenExists_after_rotation _ row t uid _ (by rw [← hbody.2.1]; exact hne)
  · rw [h200] at hst
    exact absurd rfl hst

/-- C1 (the code at the failing input): user 7 logs in at 5.2 s and obtains the refresh
token `demoRefreshToken`; `Refresh` with that token at 5.5 s, within the same second,
answers 200, returns the identical string as the new refresh token and leaves the store
with a valid row for it; `Refresh` with the same string at second 100 answers 200 again. -/
theorem Refresh_reissues_same_token :
    Login demoRefreshJwt demoBcrypt (fun _ => none) demoEnv ⟨5100000000, 5200000000⟩
        ⟨false, false⟩ demoDB (some ⟨"a@b.c".toList, "secret1".toList⟩) =
      (⟨200, .tokens ⟨demoRefreshJwt.SignedString
          (issuedClaims 7 "a@b.c".toList 5100000000 (15 * minute)) "a".toList,
          demoRefreshToken, 905⟩⟩, demoDBLoggedIn) ∧
    Refresh demoRefreshJwt (fun _ => none) demoEnv (clockFrom 5500000000) noRefreshFaults
        demoDBLoggedIn (some ⟨demoRefreshToken⟩) =
      (⟨200, .tokens ⟨demoRefreshJwt.SignedString
          (issuedClaims 7 "a@b.c".toList 5800000000 (15 * minute)) "a".toList,
          demoRefreshToken, 905⟩⟩, demoDBLoggedIn) ∧
    (Refresh demoRefreshJwt (fun _ => none) demoEnv (clockFrom 100000000000) noRefreshFaults
        demoDBLoggedIn (some ⟨demoRefreshToken⟩)).1.status = 200 := by
  refine ⟨by rfl, by rfl, by rfl⟩

/-- The sibling paths report a failing store statement as 500: the user look-up of
`Login`, the `DELETE` of `Logout`, the look-up of `Me`, and `Beginx` in `Refresh`. -/
theorem store_failure_500_elsewhere (J : JwtLib) (B : Bcrypt)
    (parseDuration : List Char → Option Int) (env : Env) (db : DB) :
    (∀ (clk : LoginClock) (insertFault : Bool) (req : credReq),
      (Login J B parseDuration env clk ⟨true, insertFault⟩ db (some req)).1.status = 500) ∧
    (∀ req : refreshReq, (Logout true db (some req)).1.status = 500) ∧
    (∀ uid : Int, (Me true db (some uid)).status = 500) ∧
    (∀ (clk : RefreshClock) (faults : RefreshFaults) (req : refreshReq) (claims : CustomClaims),
      faults.begin = true →
      (RefreshRotate J parseDuration env clk faults db req claims).1.status = 500) := by
  refine ⟨fun clk insertFault req => ?_, fun req => ?_, fun uid => ?_,
    fun clk faults req claims hb => ?_⟩
  · simp [Login, getUserByEmail]
  · simp [Logout]
  · simp [Me, getUserByID]
  · simp [RefreshRotate, hb]

/-- C7 (the code at the failing inputs): a sign-up for an e-mail that no user has, whose
`INSERT` fails for a reason other than uniqueness, is answered 400 `email already exists`;
a `Refresh` with a valid, stored token whose existence query fails is answered 401. -/
theorem store_failure_not_500 :
    demoDB.users.any (fun u => decide (u.Email = "new@b.c".toList)) = false ∧
    (SignUp demoBcrypt true 0 demoDB (some ⟨"new@b.c".toList, "secret1".toList⟩)).resp =
      ⟨400, .error "email already exists"⟩ ∧
    refreshTokenExists demoDBLoggedIn.refresh_tokens demoRefreshToken 7 10000000000 = true ∧
    (Refresh demoRefreshJwt (fun _ => none) demoEnv (clockFrom 10000000000)
        ⟨true, false, false, false, false⟩ demoDBLoggedIn (some ⟨demoRefreshToken⟩)).1 =
      ⟨401, .error "refresh token expired or invalid"⟩ := by
  refine ⟨by rfl, by rfl, by rfl, by rfl⟩

/-- C10 (the code at the failing interleaving): with a valid row for `demoRefreshToken`,
two calls of `Refresh` with that token, started at seconds 10 and 20, whose existence
queries both run before either transaction, both answer 200; run one after the other, the
second is answered 401. -/
theorem concurrent_Refresh_both_succeed :
    ((runSchedule demoRefreshJwt (fun _ => none) demoEnv
        [⟨⟨demoRefreshToken⟩, clockFrom 10000000000, noRefreshFaults⟩,
          ⟨⟨demoRefreshToken⟩, clockFrom 20000000000, noRefreshFaults⟩]
        [0, 1, 0, 1] [.start, .start] demoDBLoggedIn).1.map
        (fun st =>
          match st with
          | .done r => r.status
          | _ => 0)) = [200, 200] ∧
    ((runSchedule demoRefreshJwt (fun _ => none) demoEnv
        [⟨⟨demoRefreshToken⟩, clockFrom 10000000000, noRefreshFaults⟩,
          ⟨⟨demoRefreshToken⟩, clockFrom 20000000000, noRefreshFaults⟩]
        [0, 0, 1, 1] [.start, .start] demoDBLoggedIn).1.map
        (fun st =>
          match st with
          | .done r => r.status
          | _ => 0)) = [200, 401] := by
  refine ⟨by rfl, by rfl⟩

/-! ### Login and SignUp -/

theorem Login_unknown_email (J : JwtLib) (B : Bcrypt) (parseDuration : List Char → Option Int)
    (env : Env) (clk : LoginClock) (faults : LoginFaults) (db : DB) (req : credReq)
    (hq : faults.getUser = false) (hno : ∀ u ∈ db.users, u.Email ≠ req.Email) :
    Login J B parseDuration env clk faults db (some req) =
      (⟨401, .error "invalid credentials"⟩, db) := by
  have hfind : db.users.find? (fun u => decide (u.Email = req.Email)) = none := by
    rw [List.find?_eq_none]
    intro u hu
    simpa using hno u hu
  simp only [Login, getUserByEmail, hq, Bool.false_eq_true, if_false, hfind]

theorem Login_wrong_password (J : JwtLib) (B : Bcrypt) (parseDuration : List Char → Option Int)
    (env : Env) (clk : LoginClock) (faults : LoginFaults) (db : DB) (req : credReq)
    (hq : faults.getUser = false) (hex : ∃ u ∈ db.users, u.Email = req.Email)
    (hpw : ∀ u ∈ db.users, u.Email = req.Email →
      B.CompareHashAndPassword u.Password req.Password = false) :
    Login J B parseDuration env clk faults db (some req) =
      (⟨401, .error "invalid credentials"⟩, db) := by
  cases hfind : db.users.find? (fun u => decide (u.Email = req.Email)) with
  | none =>
    rw [List.find?_eq_none] at hfind
    obtain ⟨u, hu, he⟩ := hex
    exact absurd (by simpa using he) (hfind u hu)
  | some u =>
    have hmem : u ∈ db.users := List.mem_of_find?_eq_some hfind
    have hem : u.Email = req.Email := by simpa using List.find?_some hfind
    have hcmp := hpw u hmem hem
    simp only [Login, getUserByEmail, hq, Bool.false_eq_true, if_false, hfind, hcmp,
      not_false_eq_true, if_true]

/-- C6: for every store state and every two `Login` requests, one naming an e-mail with
no user row and one naming an existing e-mail with a password that does not match the
stored hash, the two responses are identical (status 401 and the same body), and neither
call changes the store.  The look-up itself is taken to succeed. -/
theorem Login_enumeration_resistance (J : JwtLib) (B : Bcrypt)
    (parseDuration : List Char → Option Int) (env : Env) (clk1 clk2 : LoginClock)
    (faults1 faults2 : LoginFaults) (db : DB) (req1 req2 : credReq)
    (hq1 : faults1.getUser = false) (hq2 : faults2.getUser = false)
    (hno : ∀ u ∈ db.users, u.Email ≠ req1.Email)
    (hex : ∃ u ∈ db.users, u.Email = req2.Email)
    (hpw : ∀ u ∈ db.users, u.Email = req2.Email →
      B.CompareHashAndPassword u.Password req2.Password = false) :
    (Login J B parseDuration env clk1 faults1 db (some req1)).1 =
      (Login J B parseDuration env clk2 faults2 db (some req2)).1 ∧
    (Login J B parseDuration env clk1 faults1 db (some req1)).1.status = 401 ∧
    (Login J B parseDuration env clk1 faults1 db (some req1)).2 = db ∧
    (Login J B parseDuration env clk2 faults2 db (some req2)).2 = db := by
  rw [Login_unknown_email J B parseDuration env clk1 faults1 db req1 hq1 hno,
    Login_wrong_password J B parseDuration env clk2 faults2 db req2 hq2 hex hpw]
  exact ⟨rfl, rfl, rfl, rfl⟩

/-- Witness for C6: against the store with the single user `a@b.c`, a login for
`x@y.z` and a login for `a@b.c` with the wrong password `secret2`. -/
theorem Login_enumeration_resistance_witness :
    (Login demoRefreshJwt demoBcrypt (fun _ => none) demoEnv ⟨1, 2⟩ ⟨false, false⟩ demoDB
        (some ⟨"x@y.z".toList, "secret1".toList⟩)).1 =
      (Login demoRefreshJwt demoBcrypt (fun _ => none) demoEnv ⟨3, 4⟩ ⟨false, false⟩ demoDB
        (some ⟨"a@b.c".toList, "secret2".toList⟩)).1 ∧
    (Login demoRefreshJwt demoBcrypt (fun _ => none) demoEnv ⟨1, 2⟩ ⟨false, false⟩ demoDB
        (some ⟨"x@y.z".toList, "secret1".toList⟩)).1.status = 401 ∧
    (Login demoRefreshJwt demoBcrypt (fun _ => none) demoEnv ⟨1, 2⟩ ⟨false, false⟩ demoDB
        (some ⟨"x@y.z".toList, "secret1".toList⟩)).2 = demoDB ∧
    (Login demoRefreshJwt demoBcrypt (fun _ => none) demoEnv ⟨3, 4⟩ ⟨false, false⟩ demoDB
        (some ⟨"a@b.c".toList, "secret2".toList⟩)).2 = demoDB :=
  Login_enumeration_resistance demoRefreshJwt demoBcrypt (fun _ => none) demoEnv ⟨1, 2⟩ ⟨3, 4⟩
    ⟨false, false⟩ ⟨false, false⟩ demoDB ⟨"x@y.z".toList, "secret1".toList⟩
    ⟨"a@b.c".toList, "secret2".toList⟩ rfl rfl (by decide) (by decide) (by decide)

theorem length_le_goLen (s : List Char) : s.length ≤ goLen s := by
  induction s with
  | nil => simp [goLen]
  | cons c cs ih =>
    have hc := Char.utf8Size_pos c
    simp only [goLen, List.map_cons, List.sum_cons, List.length_cons] at ih ⊢
    omega

/-- C8 (as stated, refuted): (1) the password `ééé` has 3 characters, yet `SignUp` hashes
it, inserts the user and answers 201, because the length check counts its 6 bytes; (2)
with a non-empty e-mail and a password of 73 characters, bcrypt fails, `SignUp` answers
500 and the insert is not attempted. -/
theorem SignUp_validation_as_stated_fails :
    ("ééé".toList.length = 3 ∧
      SignUp demoBcrypt false 0 demoDB (some ⟨"x@y.z".toList, "ééé".toList⟩) =
        ⟨⟨201, .message "user created"⟩,
          { demoDB with users := demoDB.users ++
            [⟨8, "x@y.z".toList, "#ééé".toList, "user".toList, 0⟩] },
          true, true⟩) ∧
    ((List.replicate 73 'p').length = 73 ∧
      SignUp demoBcrypt false 0 demoDB (some ⟨"x@y.z".toList, List.replicate 73 'p'⟩) =
        ⟨⟨500, .error "internal error"⟩, demoDB, true, false⟩) := by
  refine ⟨⟨by rfl, by rfl⟩, ⟨by rfl, by rfl⟩⟩

/-- C8 (amended): if the e-mail is empty, the password is empty, or the password has fewer
than 6 bytes, `SignUp` answers 400 without hashing and without inserting a user row; for
every non-empty e-mail with a password of at least 6 characters the validation passes and
the password is hashed, and the insert is attempted exactly when hashing succeeds (when
it fails the answer is 500 and the store is unchanged). -/
theorem SignUp_validation (B : Bcrypt) (insertFault : Bool) (createdAt : Int) (db : DB)
    (req : credReq) :
    ((req.Email = [] ∨ req.Password = [] ∨ goLen req.Password < 6) →
      (SignUp B insertFault createdAt db (some req)).resp.status = 400 ∧
      (SignUp B insertFault createdAt db (some req)).hashed = false ∧
      (SignUp B insertFault createdAt db (some req)).insertAttempted = false ∧
      (SignUp B insertFault createdAt db (some req)).db = db) ∧
    (req.Email ≠ [] → 6 ≤ req.Password.length →
      (SignUp B insertFault createdAt db (some req)).hashed = true ∧
      ((SignUp B insertFault createdAt db (some req)).insertAttempted = true ↔
        (B.GenerateFromPassword req.Password).isSome = true) ∧
      (B.GenerateFromPassword req.Password = none →
        (SignUp B insertFault createdAt db (some req)).resp.status = 500 ∧
        (SignUp B insertFault createdAt db (some req)).db = db)) := by
  constructor
  · intro h
    by_cases h1 : req.Email = [] ∨ req.Password = []
    · simp only [SignUp, if_pos h1, and_self]
    · have h2 : goLen req.Password < 6 := by
        rcases h with h | h | h
        · exact absurd (Or.inl h) h1
        · exact absurd (Or.inr h) h1
        · exact h
      simp only [SignUp, if_neg h1, if_pos h2, and_self]
  · intro he hp
    have hlen := length_le_goLen req.Password
    have h1 : ¬ (req.Email = [] ∨ req.Password = []) := by
      rintro (h | h)
      · exact he h
      · rw [h] at hp
        simp at hp
    have h2 : ¬ (goLen req.Password < 6) := by omega
    cases hh : B.GenerateFromPassword req.Password with
    | none => simp [SignUp, h1, h2, hh]
    | some hash =>
      cases hins : execInsertUser insertFault createdAt db req.Email hash with
      | error e => simp [SignUp, h1, h2, hh, hins]
      | ok db1 => simp [SignUp, h1, h2, hh, hins]

/-- Witness for C8: the empty password is refused with 400 before any hashing; the
password `secret1` for `x@y.z` is hashed and the insert is attempted. -/
theorem SignUp_validation_witness :
    ((SignUp demoBcrypt false 0 demoDB (some ⟨"x@y.z".toList, []⟩)).resp.status = 400 ∧
      (SignUp demoBcrypt false 0 demoDB (some ⟨"x@y.z".toList, []⟩)).hashed = false ∧
      (SignUp demoBcrypt false 0 demoDB (some ⟨"x@y.z".toList, []⟩)).insertAttempted = false ∧
      (SignUp demoBcrypt false 0 demoDB (some ⟨"x@y.z".toList, []⟩)).db = demoDB) ∧
    (SignUp demoBcrypt false 0 demoDB
      (some ⟨"x@y.z".toList, "secret1".toList⟩)).insertAttempted = true :=
  ⟨(SignUp_validation demoBcrypt false 0 demoDB ⟨"x@y.z".toList, []⟩).1 (Or.inr (Or.inl rfl)),
    (((SignUp_validation demoBcrypt false 0 demoDB ⟨"x@y.z".toList, "secret1".toList⟩).2
      (by decide) (by decide)).2.1).2 (by rfl)⟩

end BeGo
